import Mathlib

/-!
Verification development for the Solibri MCP server.

The JavaScript sources are shallowly embedded: strings are `List Char`,
JavaScript `undefined`/missing fields are `Option`, fallible filesystem
calls return `Except`, and the callback-driven process supervisor is
modelled as an explicit step function over a job state driven by events.
-/

namespace SolibriMCP

/-- Convert a Lean string literal to the list-of-characters representation
used throughout the development. -/
def str (s : String) : List Char := s.data

/-- Replace every occurrence of the single character `t` by `rep`, as in the
JavaScript `s.replace(/t/g, rep)` calls of `escapeXml`, whose patterns are
all single characters. -/
def replChar (t : Char) (rep : List Char) : List Char → List Char
  | [] => []
  | c :: cs => (if c = t then rep else [c]) ++ replChar t rep cs

/-- Embedding of the replacement chain of `escapeXml`
(src/unnamed/part_001, lines 120-128): five sequential global replaces, the
ampersand first, in source order. -/
def escapeXmlCore (s : List Char) : List Char :=
  replChar '\'' (str "&apos;")
    (replChar '"' (str "&quot;")
      (replChar '>' (str "&gt;")
        (replChar '<' (str "&lt;")
          (replChar '&' (str "&amp;") s))))

/-- Embedding of `escapeXml` (src/unnamed/part_001): a falsy input
(`undefined`, `null`, or the empty string) yields the empty string, any
other string goes through the replacement chain. -/
def escapeXml : Option (List Char) → List Char
  | none => []
  | some s => if s = [] then [] else escapeXmlCore s

/-- Per-character escaping table; proved below to agree with the sequential
replacement chain of `escapeXmlCore`. -/
def escapeChar (c : Char) : List Char :=
  if c = '&' then str "&amp;"
  else if c = '<' then str "&lt;"
  else if c = '>' then str "&gt;"
  else if c = '"' then str "&quot;"
  else if c = '\'' then str "&apos;"
  else [c]

/-- Boolean test that `p` is an initial segment of `s`. -/
def headIs : List Char → List Char → Bool
  | [], _ => true
  | _ :: _, [] => false
  | p :: ps, c :: cs => p == c && headIs ps cs

/-- Modelled from the spec: the standard markup unescaper inverting the five
entities produced by `escapeXml`; the repository itself defines no
unescaper, the spec only asserts the round trip. -/
def unescapeXml : List Char → List Char
  | [] => []
  | c :: cs =>
    if c = '&' then
      if headIs (str "amp;") cs then '&' :: unescapeXml (cs.drop 4)
      else if headIs (str "lt;") cs then '<' :: unescapeXml (cs.drop 3)
      else if headIs (str "gt;") cs then '>' :: unescapeXml (cs.drop 3)
      else if headIs (str "quot;") cs then '"' :: unescapeXml (cs.drop 5)
      else if headIs (str "apos;") cs then '\'' :: unescapeXml (cs.drop 5)
      else c :: unescapeXml cs
    else c :: unescapeXml cs
termination_by l => l.length
decreasing_by
  all_goals simp [List.length_drop]
  all_goals omega

/-- True when the text contains a markup metacharacter that is not part of
one of the five entities: a raw angle bracket, quote or apostrophe anywhere,
or an ampersand that does not begin an entity. -/
def hasUnescapedMeta : List Char → Bool
  | [] => false
  | c :: cs =>
    if c = '&' then
      if headIs (str "amp;") cs then hasUnescapedMeta (cs.drop 4)
      else if headIs (str "lt;") cs then hasUnescapedMeta (cs.drop 3)
      else if headIs (str "gt;") cs then hasUnescapedMeta (cs.drop 3)
      else if headIs (str "quot;") cs then hasUnescapedMeta (cs.drop 5)
      else if headIs (str "apos;") cs then hasUnescapedMeta (cs.drop 5)
      else true
    else if c == '<' || c == '>' || c == '"' || c == '\'' then true
    else hasUnescapedMeta cs
termination_by l => l.length
decreasing_by
  all_goals simp [List.length_drop]
  all_goals omega

/-- One Autorun command record: the discriminating `type` string plus the
named fields read by `generateXml`; `none` models a field that is
`undefined` in JavaScript. -/
structure Cmd where
  type : List Char
  file : Option (List Char) := none
  name : Option (List Char) := none
  templatefile : Option (List Char) := none
  title : Option (List Char) := none
  version : Option (List Char) := none
  snapshots : Option (List Char) := none

/-- JavaScript truthiness of an optional string: present and nonempty. -/
def truthy : Option (List Char) → Bool
  | none => false
  | some s => !s.isEmpty

/-- The raw value of an optional field as interpolated by a template
literal when the field is known to be present. -/
def rawField (o : Option (List Char)) : List Char := o.getD []

/-- Lines pushed for one command by the switch of `generateXml`
(src/unnamed/part_001, lines 24-111); an unknown type only logs a warning
and pushes nothing.  Note that `bcfreport`'s `version` and `autocomment`'s
`snapshots` are interpolated raw, without `escapeXml`, exactly as in the
source. -/
def genCmdLines (cmd : Cmd) : List (List Char) :=
  if cmd.type = str "openmodel" then
    [str "  <openmodel file=\"" ++ escapeXml cmd.file ++ str "\" />"]
  else if cmd.type = str "updatemodel" then
    [str "  <updatemodel file=\"" ++ escapeXml cmd.file ++ str "\" />"]
  else if cmd.type = str "savemodel" then
    [str "  <savemodel file=\"" ++ escapeXml cmd.file ++ str "\" />"]
  else if cmd.type = str "openclassification" then
    [str "  <openclassification file=\"" ++ escapeXml cmd.file ++ str "\" />"]
  else if cmd.type = str "openruleset" then
    [str "  <openruleset file=\"" ++ escapeXml cmd.file ++ str "\" />"]
  else if cmd.type = str "openito" then
    [str "  <openito file=\"" ++ escapeXml cmd.file ++ str "\" />"]
  else if cmd.type = str "check" then
    [str "  <check />"]
  else if cmd.type = str "takeoff" then
    if truthy cmd.name then
      [str "  <takeoff name=\"" ++ escapeXml cmd.name ++ str "\" />"]
    else
      [str "  <takeoff />"]
  else if cmd.type = str "itoreport" then
    let a0 := str "file=\"" ++ escapeXml cmd.file ++ str "\""
    let a1 := if truthy cmd.templatefile then
        a0 ++ str " templatefile=\"" ++ escapeXml cmd.templatefile ++ str "\""
      else a0
    let a2 := if truthy cmd.title then
        a1 ++ str " title=\"" ++ escapeXml cmd.title ++ str "\""
      else a1
    let a3 := if truthy cmd.name then
        a2 ++ str " name=\"" ++ escapeXml cmd.name ++ str "\""
      else a2
    [str "  <itoreport " ++ a3 ++ str " />"]
  else if cmd.type = str "bcfreport" then
    let a0 := str "file=\"" ++ escapeXml cmd.file ++ str "\""
    let a1 := if truthy cmd.version then
        a0 ++ str " version=\"" ++ rawField cmd.version ++ str "\""
      else a0
    [str "  <bcfreport " ++ a1 ++ str " />"]
  else if cmd.type = str "createpresentation" then
    [str "  <createpresentation />"]
  else if cmd.type = str "updatepresentation" then
    [str "  <updatepresentation />"]
  else if cmd.type = str "autocomment" then
    let a0 := if cmd.snapshots ≠ none then
        str " snapshots=\"" ++ rawField cmd.snapshots ++ str "\""
      else []
    [str "  <autocomment" ++ a0 ++ str " />"]
  else if cmd.type = str "autoupdatemodels" then
    [str "  <autoupdatemodels />"]
  else if cmd.type = str "exit" then
    [str "  <exit />"]
  else
    []

/-- Embedding of `generateXml` (src/unnamed/part_001, lines 21-115): the
fixed declaration and root-element envelope around one pushed line per
recognised command, joined by newlines. -/
def generateXml (cmds : List Cmd) : List Char :=
  List.intercalate ['\n']
    (str "<?xml version=\"1.0\" encoding=\"UTF-8\"?>" :: str "<autorun>" ::
      ((cmds.map genCmdLines).flatten ++ [str "</autorun>"]))

/-- Modelled from the spec: the renderer as the spec words it, with every
interpolated textual field — including `bcfreport`'s `version` and
`autocomment`'s `snapshots` — passed through `escapeXml`.  Used only to
compare against the source renderer `generateXml`. -/
def genCmdLinesSpec (cmd : Cmd) : List (List Char) :=
  if cmd.type = str "bcfreport" then
    let a0 := str "file=\"" ++ escapeXml cmd.file ++ str "\""
    let a1 := if truthy cmd.version then
        a0 ++ str " version=\"" ++ escapeXml cmd.version ++ str "\""
      else a0
    [str "  <bcfreport " ++ a1 ++ str " />"]
  else if cmd.type = str "autocomment" then
    let a0 := if cmd.snapshots ≠ none then
        str " snapshots=\"" ++ escapeXml cmd.snapshots ++ str "\""
      else []
    [str "  <autocomment" ++ a0 ++ str " />"]
  else
    genCmdLines cmd

/-- Modelled from the spec: the fully escaping renderer. -/
def generateXmlSpec (cmds : List Cmd) : List Char :=
  List.intercalate ['\n']
    (str "<?xml version=\"1.0\" encoding=\"UTF-8\"?>" :: str "<autorun>" ::
      ((cmds.map genCmdLinesSpec).flatten ++ [str "</autorun>"]))

/-- The configuration fields of `config.AUTORUN` read by `executeAutorun`. -/
structure AutorunCfg where
  keepXmlFiles : Bool
  timeoutMs : Nat

/-- The object passed to `resolve` on a clean exit. -/
structure SuccessRecord where
  jobId : List Char
  code : Int
  stdout : List Char
  stderr : List Char

/-- The three rejection reasons of `executeAutorun`, carrying the data the
corresponding `Error` message is built from. -/
inductive JobError where
  | timeoutErr (ms : Nat)
  | exited (code : Option Int) (diag : List Char)
  | spawnFail (msg : List Char)

/-- Runtime state of one supervised job, immediately after the process has
been spawned: the promise cell (`settled`), the captured output buffers, the
pending timeout timer, the signals sent to the process, and whether the
persisted script file still exists. -/
structure JobState where
  jobId : List Char
  settled : Option (Except JobError SuccessRecord)
  stdoutBuf : List Char
  stderrBuf : List Char
  timerActive : Bool
  killSignals : List (List Char)
  xmlPresent : Bool

/-- The asynchronous events `executeAutorun` reacts to: output chunks, the
timeout timer firing, the process-close event (whose `unlinkOk` flag models
whether the attempted script deletion succeeds), and a spawn failure. -/
inductive JobEvent where
  | dataOut (d : List Char)
  | dataErr (d : List Char)
  | timeoutFire
  | close (code : Option Int) (unlinkOk : Bool)
  | spawnError (msg : List Char)

/-- Promise settlement: the first written result wins, later writes are
no-ops. -/
def settleOnce (r : Except JobError SuccessRecord)
    (o : Option (Except JobError SuccessRecord)) :
    Option (Except JobError SuccessRecord) :=
  match o with
  | some x => some x
  | none => some r

/-- Embedding of the event handlers installed by `executeAutorun`
(src/unnamed/part_001, lines 166-209): data handlers append to the buffers;
the timer handler kills with SIGTERM and rejects with a timeout error; the
close handler clears the timer, best-effort deletes the script unless
`keepXmlFiles`, then resolves on exit code 0 and otherwise rejects with the
exit code and `stderr || stdout`; the error handler clears the timer and
rejects with a launch error. -/
def executeAutorunStep (cfg : AutorunCfg) (s : JobState) (e : JobEvent) : JobState :=
  match e with
  | .dataOut d => { s with stdoutBuf := s.stdoutBuf ++ d }
  | .dataErr d => { s with stderrBuf := s.stderrBuf ++ d }
  | .timeoutFire =>
    if s.timerActive then
      { s with timerActive := false,
               killSignals := s.killSignals ++ [str "SIGTERM"],
               settled := settleOnce (.error (.timeoutErr cfg.timeoutMs)) s.settled }
    else s
  | .close code unlinkOk =>
    let s1 := { s with timerActive := false }
    let s2 := if cfg.keepXmlFiles then s1
      else if unlinkOk then { s1 with xmlPresent := false } else s1
    if code = some 0 then
      { s2 with settled :=
          settleOnce (.ok ⟨s.jobId, 0, s.stdoutBuf, s.stderrBuf⟩) s2.settled }
    else
      { s2 with settled :=
          settleOnce (.error (.exited code
            (if s.stderrBuf.isEmpty then s.stdoutBuf else s.stderrBuf))) s2.settled }
  | .spawnError msg =>
    { s with timerActive := false,
             settled := settleOnce (.error (.spawnFail msg)) s.settled }

/-- State of a job right after launch: unsettled, empty buffers, timer
started, no signals sent, script file written. -/
def initJob (jobId : List Char) : JobState :=
  { jobId := jobId, settled := none, stdoutBuf := [], stderrBuf := [],
    timerActive := true, killSignals := [], xmlPresent := true }

/-- Run a job through a sequence of events. -/
def runJob (cfg : AutorunCfg) (s0 : JobState) (events : List JobEvent) : JobState :=
  events.foldl (executeAutorunStep cfg) s0

/-- Outcome of a request to the follow-up endpoint: an HTTP error status
with a message body, or delivery to `handlePostMessage` of one registered
transport (identified by its registration index). -/
inductive MsgResponse where
  | httpStatus (code : Nat) (msg : List Char)
  | delivered (transport : Nat)
deriving DecidableEq

/-- Embedding of the `authenticate` middleware (src/index.js, lines
190-200): `none` means the request passes, `some (status, body)` means it
is rejected with that status. -/
def authenticate (authHeader : Option (List Char)) (cfgToken : List Char) :
    Option (Nat × List Char) :=
  match authHeader with
  | none => some (401, str "Missing authorization header")
  | some h =>
    if headIs (str "Bearer ") h = false then
      some (401, str "Missing authorization header")
    else if h.drop 7 ≠ cfgToken then some (403, str "Invalid token")
    else none

/-- Embedding of the `POST /messages` route (src/index.js, lines 271-278):
after the `authenticate` middleware, the first registered transport — if
any — receives the message; with no registered transport the route answers
status 400. -/
def handleMessages (authHeader : Option (List Char)) (cfgToken : List Char)
    (transports : List Nat) : MsgResponse :=
  match authenticate authHeader cfgToken with
  | some (c, m) => .httpStatus c m
  | none =>
    match transports with
    | [] => .httpStatus 400 (str "No active SSE connection")
    | t :: _ => .delivered t

/-- The message of the error thrown when `waitUntilIdle` exceeds its
deadline. -/
def idleTimeoutMsg (timeoutMs : Nat) : List Char :=
  str "Solibri did not become idle within " ++ (Nat.repr timeoutMs).data ++ str "ms"

/-- The polling loop of `waitUntilIdle` (src/unnamed/part_001, rest client,
lines 398-410).  `busy t` is the remote's busy report at elapsed time `t`;
each iteration polls, returns `true` on a not-busy report, and otherwise
sleeps exactly `pollIntervalMs`.  The `fuel` argument only bounds the
recursion; it is proved irrelevant for positive poll intervals. -/
def waitLoop (busy : Nat → Bool) (timeoutMs pollIntervalMs : Nat) :
    Nat → Nat → Except (List Char) Bool
  | _, 0 => .error (str "model fuel exhausted")
  | elapsed, fuel + 1 =>
    if elapsed < timeoutMs then
      if busy elapsed = false then .ok true
      else waitLoop busy timeoutMs pollIntervalMs (elapsed + pollIntervalMs) fuel
    else .error (idleTimeoutMsg timeoutMs)

/-- Embedding of `waitUntilIdle`: start at elapsed time 0 with enough fuel
for every reachable iteration. -/
def waitUntilIdle (busy : Nat → Bool) (timeoutMs pollIntervalMs : Nat) :
    Except (List Char) Bool :=
  waitLoop busy timeoutMs pollIntervalMs 0 (timeoutMs + 1)

/-- One asset descriptor returned by `listAssets`. -/
structure Asset where
  name : List Char
  path : List Char
deriving DecidableEq

/-- The four asset directories of `config.SOLIBRI` read by `listAssets`. -/
structure SolibriDirsCfg where
  classificationsDir : List Char
  rulesetsDir : List Char
  itoDir : List Char
  templatesDir : List Char

/-- The `dirs` lookup table of `listAssets`: `none` models the `undefined`
of an unknown key. -/
def dirsFor (cfg : SolibriDirsCfg) (ty : List Char) : Option (List Char) :=
  if ty = str "classifications" then some cfg.classificationsDir
  else if ty = str "rulesets" then some cfg.rulesetsDir
  else if ty = str "ito" then some cfg.itoDir
  else if ty = str "templates" then some cfg.templatesDir
  else none

/-- The `extensions` lookup table of `listAssets`, with the `|| []`
fallback for an unknown key. -/
def extsFor (ty : List Char) : List (List Char) :=
  if ty = str "classifications" then [str ".classification"]
  else if ty = str "rulesets" then [str ".cset"]
  else if ty = str "ito" then [str ".ito"]
  else if ty = str "templates" then [str ".xlsx", str ".xls"]
  else []

/-- A filesystem snapshot: the association of existing directories to their
entry names. -/
structure FileSys where
  dirEntries : List (List Char × List (List Char))

/-- Model of `fs.existsSync` on directories of the snapshot. -/
def FileSys.existsSync (fs : FileSys) (d : List Char) : Bool :=
  (fs.dirEntries.lookup d).isSome

/-- Model of `fs.readdirSync`: reading a directory that does not exist
throws. -/
def FileSys.readdirSync (fs : FileSys) (d : List Char) :
    Except (List Char) (List (List Char)) :=
  match fs.dirEntries.lookup d with
  | some files => .ok files
  | none => .error (str "ENOENT")

/-- Suffix test on character lists. -/
def endsWith (s suffix : List Char) : Bool := headIs suffix.reverse s.reverse

/-- The filter of `listAssets`: the lower-cased file name ends with one of
the type's extensions. -/
def matchesExt (ty : List Char) (f : List Char) : Bool :=
  (extsFor ty).any (fun ext => endsWith (f.map Char.toLower) ext)

/-- `path.join`, modelled with a fixed separator; only the shape of the
joined path matters to the claims. -/
def pathJoin (dir f : List Char) : List Char := dir ++ '/' :: f

/-- Embedding of `listAssets` (src/unnamed/part_001, lines 216-245): an
unknown type, a falsy configured directory, or a missing directory yield
the empty list before any directory read; otherwise the directory entries
are filtered by extension and mapped to descriptors. -/
def listAssets (fs : FileSys) (cfg : SolibriDirsCfg) (ty : List Char) :
    Except (List Char) (List Asset) :=
  match dirsFor cfg ty with
  | none => .ok []
  | some dir =>
    if dir.isEmpty || !(fs.existsSync dir) then .ok []
    else
      match fs.readdirSync dir with
      | .error e => .error e
      | .ok files =>
        .ok ((files.filter (matchesExt ty)).map (fun f => ⟨f, pathJoin dir f⟩))

theorem replChar_append (t : Char) (rep : List Char) (a b : List Char) :
    replChar t rep (a ++ b) = replChar t rep a ++ replChar t rep b := by
  induction a with
  | nil => rfl
  | cons c cs ih => simp [replChar, ih]

theorem escapeXmlCore_nil : escapeXmlCore [] = [] := rfl

theorem escapeXmlCore_append (a b : List Char) :
    escapeXmlCore (a ++ b) = escapeXmlCore a ++ escapeXmlCore b := by
  simp [escapeXmlCore, replChar_append]

theorem escapeXmlCore_cons (c : Char) (cs : List Char) :
    escapeXmlCore (c :: cs) = escapeChar c ++ escapeXmlCore cs := by
  have h : (c :: cs) = [c] ++ cs := rfl
  rw [h, escapeXmlCore_append]
  congr 1
  by_cases h1 : c = '&'
  · subst h1; rfl
  · by_cases h2 : c = '<'
    · subst h2; rfl
    · by_cases h3 : c = '>'
      · subst h3; rfl
      · by_cases h4 : c = '"'
        · subst h4; rfl
        · by_cases h5 : c = '\''
          · subst h5; rfl
          · simp [escapeXmlCore, replChar, escapeChar, h1, h2, h3, h4, h5]

theorem unescapeXml_amp (rest : List Char) :
    unescapeXml ('&' :: 'a' :: 'm' :: 'p' :: ';' :: rest) = '&' :: unescapeXml rest := by
  rw [unescapeXml]
  simp [headIs, str]

theorem unescapeXml_lt (rest : List Char) :
    unescapeXml ('&' :: 'l' :: 't' :: ';' :: rest) = '<' :: unescapeXml rest := by
  rw [unescapeXml]
  simp [headIs, str]

theorem unescapeXml_gt (rest : List Char) :
    unescapeXml ('&' :: 'g' :: 't' :: ';' :: rest) = '>' :: unescapeXml rest := by
  rw [unescapeXml]
  simp [headIs, str]

theorem unescapeXml_quot (rest : List Char) :
    unescapeXml ('&' :: 'q' :: 'u' :: 'o' :: 't' :: ';' :: rest) = '"' :: unescapeXml rest := by
  rw [unescapeXml]
  simp [headIs, str]

theorem unescapeXml_apos (rest : List Char) :
    unescapeXml ('&' :: 'a' :: 'p' :: 'o' :: 's' :: ';' :: rest) = '\'' :: unescapeXml rest := by
  rw [unescapeXml]
  simp [headIs, str]

theorem unescapeXml_other (c : Char) (rest : List Char) (h : c ≠ '&') :
    unescapeXml (c :: rest) = c :: unescapeXml rest := by
  rw [unescapeXml]
  simp [h]

theorem unescapeXml_escapeXmlCore (s : List Char) :
    unescapeXml (escapeXmlCore s) = s := by
  induction s with
  | nil => rw [escapeXmlCore_nil, unescapeXml]
  | cons c cs ih =>
    rw [escapeXmlCore_cons]
    by_cases h1 : c = '&'
    · subst h1
      show unescapeXml ('&' :: 'a' :: 'm' :: 'p' :: ';' :: escapeXmlCore cs) = _
      rw [unescapeXml_amp, ih]
    · by_cases h2 : c = '<'
      · subst h2
        show unescapeXml ('&' :: 'l' :: 't' :: ';' :: escapeXmlCore cs) = _
        rw [unescapeXml_lt, ih]
      · by_cases h3 : c = '>'
        · subst h3
          show unescapeXml ('&' :: 'g' :: 't' :: ';' :: escapeXmlCore cs) = _
          rw [unescapeXml_gt, ih]
        · by_cases h4 : c = '"'
          · subst h4
            show unescapeXml ('&' :: 'q' :: 'u' :: 'o' :: 't' :: ';' :: escapeXmlCore cs) = _
            rw [unescapeXml_quot, ih]
          · by_cases h5 : c = '\''
            · subst h5
              show unescapeXml ('&' :: 'a' :: 'p' :: 'o' :: 's' :: ';' :: escapeXmlCore cs) = _
              rw [unescapeXml_apos, ih]
            · have hesc : escapeChar c = [c] := by
                simp [escapeChar, h1, h2, h3, h4, h5]
              rw [hesc]
              show unescapeXml (c :: escapeXmlCore cs) = _
              rw [unescapeXml_other c _ h1, ih]

theorem hasUnescapedMeta_amp (rest : List Char) :
    hasUnescapedMeta ('&' :: 'a' :: 'm' :: 'p' :: ';' :: rest) = hasUnescapedMeta rest := by
  rw [hasUnescapedMeta]
  simp [headIs, str]

theorem hasUnescapedMeta_lt (rest : List Char) :
    hasUnescapedMeta ('&' :: 'l' :: 't' :: ';' :: rest) = hasUnescapedMeta rest := by
  rw [hasUnescapedMeta]
  simp [headIs, str]

theorem hasUnescapedMeta_gt (rest : List Char) :
    hasUnescapedMeta ('&' :: 'g' :: 't' :: ';' :: rest) = hasUnescapedMeta rest := by
  rw [hasUnescapedMeta]
  simp [headIs, str]

theorem hasUnescapedMeta_quot (rest : List Char) :
    hasUnescapedMeta ('&' :: 'q' :: 'u' :: 'o' :: 't' :: ';' :: rest) = hasUnescapedMeta rest := by
  rw [hasUnescapedMeta]
  simp [headIs, str]

theorem hasUnescapedMeta_apos (rest : List Char) :
    hasUnescapedMeta ('&' :: 'a' :: 'p' :: 'o' :: 's' :: ';' :: rest) = hasUnescapedMeta rest := by
  rw [hasUnescapedMeta]
  simp [headIs, str]

theorem hasUnescapedMeta_other (c : Char) (rest : List Char) (h1 : c ≠ '&')
    (h2 : c ≠ '<') (h3 : c ≠ '>') (h4 : c ≠ '"') (h5 : c ≠ '\'') :
    hasUnescapedMeta (c :: rest) = hasUnescapedMeta rest := by
  rw [hasUnescapedMeta]
  simp [h1, h2, h3, h4, h5]

theorem hasUnescapedMeta_escapeXmlCore (s : List Char) :
    hasUnescapedMeta (escapeXmlCore s) = false := by
  induction s with
  | nil => rw [escapeXmlCore_nil, hasUnescapedMeta]
  | cons c cs ih =>
    rw [escapeXmlCore_cons]
    by_cases h1 : c = '&'
    · subst h1
      show hasUnescapedMeta ('&' :: 'a' :: 'm' :: 'p' :: ';' :: escapeXmlCore cs) = _
      rw [hasUnescapedMeta_amp, ih]
    · by_cases h2 : c = '<'
      · subst h2
        show hasUnescapedMeta ('&' :: 'l' :: 't' :: ';' :: escapeXmlCore cs) = _
        rw [hasUnescapedMeta_lt, ih]
      · by_cases h3 : c = '>'
        · subst h3
          show hasUnescapedMeta ('&' :: 'g' :: 't' :: ';' :: escapeXmlCore cs) = _
          rw [hasUnescapedMeta_gt, ih]
        · by_cases h4 : c = '"'
          · subst h4
            show hasUnescapedMeta ('&' :: 'q' :: 'u' :: 'o' :: 't' :: ';' :: escapeXmlCore cs) = _
            rw [hasUnescapedMeta_quot, ih]
          · by_cases h5 : c = '\''
            · subst h5
              show hasUnescapedMeta ('&' :: 'a' :: 'p' :: 'o' :: 's' :: ';' :: escapeXmlCore cs) = _
              rw [hasUnescapedMeta_apos, ih]
            · have hesc : escapeChar c = [c] := by
                simp [escapeChar, h1, h2, h3, h4, h5]
              rw [hesc]
              show hasUnescapedMeta (c :: escapeXmlCore cs) = _
              rw [hasUnescapedMeta_other c _ h1 h2 h3 h4 h5, ih]

theorem step_preserves_settled (cfg : AutorunCfg) (s : JobState) (e : JobEvent)
    (r : Except JobError SuccessRecord) (h : s.settled = some r) :
    (executeAutorunStep cfg s e).settled = some r := by
  cases e with
  | dataOut d => simpa [executeAutorunStep] using h
  | dataErr d => simpa [executeAutorunStep] using h
  | timeoutFire =>
    simp only [executeAutorunStep]
    split
    · simp [settleOnce, h]
    · exact h
  | close code unlinkOk =>
    simp [executeAutorunStep, settleOnce, apply_ite (JobState.settled), h]
  | spawnError msg =>
    simp [executeAutorunStep, settleOnce, h]

theorem genCmdLinesSpec_eq (cmd : Cmd) (hv : cmd.version = none)
    (hs : cmd.snapshots = none) : genCmdLinesSpec cmd = genCmdLines cmd := by
  by_cases hb : cmd.type = str "bcfreport"
  · simp +decide [genCmdLinesSpec, genCmdLines, hb, hv, truthy]
  · by_cases ha : cmd.type = str "autocomment"
    · simp +decide [genCmdLinesSpec, genCmdLines, hb, ha, hs]
    · simp [genCmdLinesSpec, hb, ha]

theorem authenticate_status (h : Option (List Char)) (tok : List Char)
    (c : Nat) (m : List Char) (hc : authenticate h tok = some (c, m)) :
    c = 401 ∨ c = 403 := by
  cases h with
  | none =>
    rw [show authenticate none tok
        = some (401, str "Missing authorization header") from rfl,
      Option.some.injEq, Prod.mk.injEq] at hc
    exact Or.inl hc.1.symm
  | some hh =>
    rw [show authenticate (some hh) tok
        = (if headIs (str "Bearer ") hh = false then
            some (401, str "Missing authorization header")
          else if hh.drop 7 ≠ tok then some (403, str "Invalid token")
          else none) from rfl] at hc
    by_cases h1 : headIs (str "Bearer ") hh = false
    · rw [if_pos h1, Option.some.injEq, Prod.mk.injEq] at hc
      exact Or.inl hc.1.symm
    · rw [if_neg h1] at hc
      by_cases h2 : hh.drop 7 ≠ tok
      · rw [if_pos h2, Option.some.injEq, Prod.mk.injEq] at hc
        exact Or.inr hc.1.symm
      · rw [if_neg h2] at hc
        exact Option.noConfusion hc

theorem waitLoop_timeout (busy : Nat → Bool) (t p : Nat) (hp : 0 < p) :
    ∀ fuel elapsed, 0 < fuel → t < elapsed + fuel →
      (∀ j, elapsed + j * p < t → busy (elapsed + j * p) = true) →
      waitLoop busy t p elapsed fuel = .error (idleTimeoutMsg t) := by
  intro fuel
  induction fuel with
  | zero => intro elapsed h0 _ _; omega
  | succ f ih =>
    intro elapsed _ hlt hall
    rw [waitLoop]
    by_cases he : elapsed < t
    · rw [if_pos he]
      have hb : busy elapsed = true := by
        have := hall 0 (by simpa using he)
        simpa using this
      rw [hb]
      simp only [Bool.true_eq_false, if_false]
      apply ih
      · omega
      · omega
      · intro j hj
        have h2 : elapsed + (j + 1) * p = elapsed + p + j * p := by ring
        have := hall (j + 1) (by omega)
        rw [h2] at this
        exact this
    · rw [if_neg he]

theorem waitLoop_firstIdle (busy : Nat → Bool) (t p : Nat) :
    ∀ n elapsed fuel, elapsed + n * p < t → n < fuel →
      (∀ k, k < n → busy (elapsed + k * p) = true) →
      busy (elapsed + n * p) = false →
      waitLoop busy t p elapsed fuel = .ok true := by
  intro n
  induction n with
  | zero =>
    intro elapsed fuel h1 h2 _ hidle
    match fuel, h2 with
    | f + 1, _ =>
      rw [waitLoop]
      rw [if_pos (by omega : elapsed < t)]
      simp only [Nat.zero_mul, Nat.add_zero] at hidle
      rw [hidle]
      simp
  | succ m ih =>
    intro elapsed fuel h1 h2 hbusy hidle
    match fuel, h2 with
    | f + 1, _ =>
      rw [waitLoop]
      rw [if_pos (by nlinarith : elapsed < t)]
      have hb : busy elapsed = true := by
        have := hbusy 0 (by omega)
        simpa using this
      rw [hb]
      simp only [Bool.true_eq_false, if_false]
      apply ih (elapsed + p) f
      · have h3 : elapsed + p + m * p = elapsed + (m + 1) * p := by ring
        omega
      · omega
      · intro k hk
        have h3 : elapsed + p + k * p = elapsed + (k + 1) * p := by ring
        rw [h3]
        exact hbusy (k + 1) (by omega)
      · have h3 : elapsed + p + m * p = elapsed + (m + 1) * p := by ring
        rw [h3]
        exact hidle

theorem readdir_of_existsSync (fs : FileSys) (d : List Char)
    (h : fs.existsSync d = true) :
    ∃ files, fs.dirEntries.lookup d = some files ∧ fs.readdirSync d = .ok files := by
  unfold FileSys.existsSync at h
  obtain ⟨files, hf⟩ := Option.isSome_iff_exists.mp h
  refine ⟨files, hf, ?_⟩
  unfold FileSys.readdirSync
  rw [hf]

set_option maxRecDepth 100000 in
/-- Claim C1, counterexample: the claim says every textual field value is
escaped against the markup metacharacters, but `generateXml` interpolates
`bcfreport`'s `version` field raw: for a version value containing `<` and
`"` the rendered output contains those characters unescaped inside the
attribute, and the source renderer differs from the fully escaping
renderer the spec describes. -/
theorem generateXml_escapes_all_fields_cex :
    generateXml [{ type := str "bcfreport", file := some (str "out.bcf"), version := some (str "a<b\"c") }] =
      str "<?xml version=\"1.0\" encoding=\"UTF-8\"?>\n<autorun>\n  <bcfreport file=\"out.bcf\" version=\"a<b\"c\" />\n</autorun>" ∧
    generateXml [{ type := str "bcfreport", file := some (str "out.bcf"), version := some (str "a<b\"c") }] ≠
      generateXmlSpec [{ type := str "bcfreport", file := some (str "out.bcf"), version := some (str "a<b\"c") }] := by
  constructor
  · decide
  · decide

/-- Claim C1, amended: every textual field other than `bcfreport`'s
`version` and `autocomment`'s `snapshots` is interpolated through
`escapeXml`, whose output contains no unescaped metacharacter; on every
operation list in which those two raw fields are absent the source renderer
coincides with the fully escaping renderer. -/
theorem generateXml_escapes_except_version_snapshots (cmds : List Cmd)
    (h : ∀ cmd ∈ cmds, cmd.version = none ∧ cmd.snapshots = none) :
    generateXml cmds = generateXmlSpec cmds ∧
    (∀ s : List Char, hasUnescapedMeta (escapeXml (some s)) = false) := by
  constructor
  · unfold generateXml generateXmlSpec
    have hmap : cmds.map genCmdLines = cmds.map genCmdLinesSpec := by
      apply List.map_congr_left
      intro cmd hcmd
      exact (genCmdLinesSpec_eq cmd (h cmd hcmd).1 (h cmd hcmd).2).symm
    rw [hmap]
  · intro s
    show hasUnescapedMeta (if s = [] then [] else escapeXmlCore s) = false
    by_cases hnil : s = []
    · rw [if_pos hnil, hasUnescapedMeta]
    · rw [if_neg hnil]
      exact hasUnescapedMeta_escapeXmlCore s

set_option maxRecDepth 10000 in
/-- Witness for the amended C1 at a concrete operation list. -/
theorem generateXml_escapes_except_version_snapshots_witness :
    generateXml [{ type := str "openmodel", file := some (str "a.ifc") }]
      = generateXmlSpec [{ type := str "openmodel", file := some (str "a.ifc") }] :=
  (generateXml_escapes_except_version_snapshots
    [{ type := str "openmodel", file := some (str "a.ifc") }] (by decide)).1

/-- Claim C2: a job whose timer fires while it is still unsettled settles
as a timeout error, the process is sent SIGTERM, and every later event —
in particular a late process-close — leaves the settled result unchanged,
so the job settles exactly once. -/
theorem executeAutorun_timeout_settles_once (cfg : AutorunCfg) (s : JobState)
    (hunsettled : s.settled = none) (htimer : s.timerActive = true) :
    (executeAutorunStep cfg s .timeoutFire).settled
        = some (.error (.timeoutErr cfg.timeoutMs)) ∧
    str "SIGTERM" ∈ (executeAutorunStep cfg s .timeoutFire).killSignals ∧
    (∀ e, (executeAutorunStep cfg (executeAutorunStep cfg s .timeoutFire) e).settled
        = some (.error (.timeoutErr cfg.timeoutMs))) := by
  have h1 : (executeAutorunStep cfg s .timeoutFire).settled
      = some (.error (.timeoutErr cfg.timeoutMs)) := by
    simp [executeAutorunStep, htimer, settleOnce, hunsettled]
  refine ⟨h1, ?_, fun e => step_preserves_settled cfg _ e _ h1⟩
  simp [executeAutorunStep, htimer]

/-- Witness for C2 at a freshly launched job. -/
theorem executeAutorun_timeout_settles_once_witness :
    (executeAutorunStep ⟨false, 500⟩ (initJob (str "w")) JobEvent.timeoutFire).settled
      = some (Except.error (JobError.timeoutErr 500)) :=
  (executeAutorun_timeout_settles_once ⟨false, 500⟩ (initJob (str "w")) rfl rfl).1

theorem close_settles (cfg : AutorunCfg) (s : JobState) (code : Option Int)
    (u : Bool) :
    ((executeAutorunStep cfg s (.close code u)).settled).isSome = true := by
  simp [executeAutorunStep, settleOnce, apply_ite (JobState.settled)]
  cases hs : s.settled <;> simp [settleOnce, apply_ite Option.isSome]

theorem close_deletes_xml (cfg : AutorunCfg) (s : JobState) (code : Option Int)
    (hk : cfg.keepXmlFiles = false) :
    (executeAutorunStep cfg s (.close code true)).xmlPresent = false := by
  simp [executeAutorunStep, hk, apply_ite (JobState.xmlPresent)]

theorem close_unlink_outcome_irrelevant (cfg : AutorunCfg) (s : JobState)
    (code : Option Int) :
    (executeAutorunStep cfg s (.close code false)).settled
      = (executeAutorunStep cfg s (.close code true)).settled := by
  simp [executeAutorunStep, settleOnce, apply_ite (JobState.settled)]

theorem step_keeps_xml_of_keep (cfg : AutorunCfg) (s : JobState) (e : JobEvent)
    (hk : cfg.keepXmlFiles = true) :
    (executeAutorunStep cfg s e).xmlPresent = s.xmlPresent := by
  cases e with
  | dataOut d => rfl
  | dataErr d => rfl
  | timeoutFire =>
    simp only [executeAutorunStep]
    split <;> rfl
  | close code unlinkOk =>
    simp [executeAutorunStep, hk, apply_ite (JobState.xmlPresent)]
  | spawnError msg => rfl

theorem runJob_keeps_xml_of_keep (cfg : AutorunCfg) (hk : cfg.keepXmlFiles = true) :
    ∀ events s, (runJob cfg s events).xmlPresent = s.xmlPresent := by
  intro events
  induction events with
  | nil => intro s; rfl
  | cons e rest ih =>
    intro s
    show (runJob cfg (executeAutorunStep cfg s e) rest).xmlPresent = s.xmlPresent
    rw [ih (executeAutorunStep cfg s e), step_keeps_xml_of_keep cfg s e hk]

theorem runJob_append_close (cfg : AutorunCfg) (s : JobState)
    (events : List JobEvent) (e : JobEvent) :
    runJob cfg s (events ++ [e]) = executeAutorunStep cfg (runJob cfg s events) e := by
  simp [runJob, List.foldl_append]

/-- Claim C3: Node delivers the close event on every settlement path — after
a clean or non-zero exit, after a spawn failure (close follows the error
event), and after the timeout kill — so every execution of a job is some
event sequence ending with a close.  At that point the job is settled; the
script file has been deleted unless the retain-scripts flag is set (when
the unlink call succeeds), with the flag set it is still present; and a
failed deletion is swallowed: it yields exactly the settled result a
successful deletion yields. -/
theorem executeAutorun_cleanup_after_close (cfg : AutorunCfg)
    (jobId : List Char) (events : List JobEvent) (code : Option Int) (u : Bool) :
    ((runJob cfg (initJob jobId) (events ++ [.close code u])).settled).isSome = true ∧
    (cfg.keepXmlFiles = false →
      (runJob cfg (initJob jobId) (events ++ [.close code true])).xmlPresent = false) ∧
    (cfg.keepXmlFiles = true →
      (runJob cfg (initJob jobId) (events ++ [.close code u])).xmlPresent = true) ∧
    ((runJob cfg (initJob jobId) (events ++ [.close code false])).settled
       = (runJob cfg (initJob jobId) (events ++ [.close code true])).settled) := by
  refine ⟨?_, ?_, ?_, ?_⟩
  · rw [runJob_append_close]
    exact close_settles cfg _ code u
  · intro hk
    rw [runJob_append_close]
    exact close_deletes_xml cfg _ code hk
  · intro hk
    rw [runJob_append_close, step_keeps_xml_of_keep cfg _ _ hk,
      runJob_keeps_xml_of_keep cfg hk events (initJob jobId)]
    rfl
  · rw [runJob_append_close, runJob_append_close]
    exact close_unlink_outcome_irrelevant cfg _ code

/-- Witness for C3 on the spawn-failure path: the error event is followed
by the close event, which deletes the script file with the retain flag
off. -/
theorem executeAutorun_cleanup_after_close_witness :
    (runJob ⟨false, 1000⟩ (initJob (str "w"))
        ([JobEvent.spawnError (str "ENOENT")] ++ [JobEvent.close none true])).xmlPresent = false :=
  (executeAutorun_cleanup_after_close ⟨false, 1000⟩ (str "w")
    [JobEvent.spawnError (str "ENOENT")] none true).2.1 rfl

/-- Claim C4: on a process close before the deadline the timer is
cancelled; exit code 0 settles success with the job id and both captured
buffers, and any non-zero exit code settles a failure carrying that code
and the captured stderr, falling back to stdout when stderr is empty. -/
theorem executeAutorun_close_before_deadline (cfg : AutorunCfg) (s : JobState)
    (c : Int) (uo : Bool)
    (hunsettled : s.settled = none) (htimer : s.timerActive = true) :
    ((executeAutorunStep cfg s (.close (some c) uo)).timerActive = false) ∧
    (c = 0 → (executeAutorunStep cfg s (.close (some c) uo)).settled
        = some (.ok ⟨s.jobId, 0, s.stdoutBuf, s.stderrBuf⟩)) ∧
    (c ≠ 0 → (executeAutorunStep cfg s (.close (some c) uo)).settled
        = some (.error (.exited (some c)
            (if s.stderrBuf.isEmpty then s.stdoutBuf else s.stderrBuf)))) := by
  refine ⟨?_, ?_, ?_⟩
  · simp [executeAutorunStep, apply_ite (JobState.timerActive)]
  · intro hc
    subst hc
    simp [executeAutorunStep, settleOnce, apply_ite (JobState.settled), hunsettled]
  · intro hc
    simp [executeAutorunStep, settleOnce, apply_ite (JobState.settled), hunsettled, hc]

/-- Witness for C4 at a non-zero exit code. -/
theorem executeAutorun_close_before_deadline_witness :
    (executeAutorunStep ⟨false, 500⟩ (initJob (str "w")) (JobEvent.close (some 3) true)).settled
      = some (Except.error (JobError.exited (some 3) [])) :=
  (executeAutorun_close_before_deadline ⟨false, 500⟩ (initJob (str "w")) 3 true rfl rfl).2.2
    (by decide)

set_option maxRecDepth 100000 in
/-- Claim C5: the example operation list renders to exactly one element
per operation, in order, inside the fixed envelope, with exactly the stated
attributes; absent optional fields produce no attribute at all in the
`bcfreport`, `takeoff`, `itoreport` and `autocomment` elements. -/
theorem generateXml_example_sequence :
    generateXml [
      { type := str "openmodel", file := some (str "a.ifc") },
      { type := str "openruleset", file := some (str "r.cset") },
      { type := str "check" },
      { type := str "bcfreport", file := some (str "out.bcf"), version := some (str "2.1") },
      { type := str "exit" } ] =
      str "<?xml version=\"1.0\" encoding=\"UTF-8\"?>\n<autorun>\n  <openmodel file=\"a.ifc\" />\n  <openruleset file=\"r.cset\" />\n  <check />\n  <bcfreport file=\"out.bcf\" version=\"2.1\" />\n  <exit />\n</autorun>" ∧
    genCmdLines { type := str "bcfreport", file := some (str "out.bcf") }
      = [str "  <bcfreport file=\"out.bcf\" />"] ∧
    genCmdLines { type := str "takeoff" } = [str "  <takeoff />"] ∧
    genCmdLines { type := str "itoreport", file := some (str "o.xlsx") }
      = [str "  <itoreport file=\"o.xlsx\" />"] ∧
    genCmdLines { type := str "autocomment" } = [str "  <autocomment />"] := by
  decide

/-- Claim C6, counterexample: the claim says the same (including an
unauthenticated) request made after a session is registered is delivered to
the session's handler, but the `authenticate` middleware rejects an
unauthenticated request with status 401 even though a transport is
registered, so it is never delivered. -/
theorem handleMessages_unauthenticated_cex :
    handleMessages none (str "tok") [0]
        = MsgResponse.httpStatus 401 (str "Missing authorization header") ∧
    handleMessages none (str "tok") [0] ≠ MsgResponse.delivered 0 := by
  constructor
  · rfl
  · decide

/-- Claim C6, amended: a request to the follow-up endpoint with no open
session gets a client-error status (400 when authenticated, 401 or 403
otherwise); an authenticated request made while a session is registered is
delivered to the first registered session's handler; a request failing
bearer authentication gets status 401 or 403 regardless of sessions. -/
theorem handleMessages_auth_and_session (h : Option (List Char))
    (tok : List Char) (ts : List Nat) :
    (ts = [] → ∃ c m, handleMessages h tok ts = .httpStatus c m ∧ 400 ≤ c ∧ c < 500) ∧
    (authenticate h tok = none → ts = [] →
      handleMessages h tok ts = .httpStatus 400 (str "No active SSE connection")) ∧
    (authenticate h tok = none →
      ∀ t rest, ts = t :: rest → handleMessages h tok ts = .delivered t) ∧
    (∀ c m, authenticate h tok = some (c, m) →
      handleMessages h tok ts = .httpStatus c m ∧ (c = 401 ∨ c = 403)) := by
  refine ⟨?_, ?_, ?_, ?_⟩
  · intro hts
    subst hts
    cases hauth : authenticate h tok with
    | none =>
      exact ⟨400, str "No active SSE connection",
        by simp [handleMessages, hauth], by omega, by omega⟩
    | some p =>
      obtain ⟨c, m⟩ := p
      have := authenticate_status h tok c m hauth
      exact ⟨c, m, by simp [handleMessages, hauth], by omega, by omega⟩
  · intro hauth hts
    subst hts
    simp [handleMessages, hauth]
  · intro hauth t rest hts
    subst hts
    simp [handleMessages, hauth]
  · intro c m hauth
    refine ⟨by simp [handleMessages, hauth], authenticate_status h tok c m hauth⟩

/-- Witness for the amended C6: an authenticated request with one open
session is delivered to it, and the same authenticated request with no
session open is answered 400. -/
theorem handleMessages_auth_and_session_witness :
    handleMessages (some (str "Bearer t0k")) (str "t0k") [5] = MsgResponse.delivered 5 ∧
    handleMessages (some (str "Bearer t0k")) (str "t0k") []
      = MsgResponse.httpStatus 400 (str "No active SSE connection") :=
  ⟨(handleMessages_auth_and_session (some (str "Bearer t0k")) (str "t0k") [5]).2.2.1
      (by decide) 5 [] rfl,
   (handleMessages_auth_and_session (some (str "Bearer t0k")) (str "t0k") []).2.1
      (by decide) rfl⟩

/-- Claim C7: with a positive poll interval, `waitUntilIdle` returns as
soon as the first poll within the deadline reports not-busy (polls happen
at constant spacing, the n-th at elapsed time n times the interval), and if
every poll within the deadline reports busy it raises the timeout error. -/
theorem waitUntilIdle_polls_until_idle_or_deadline (busy : Nat → Bool)
    (t p : Nat) (hp : 0 < p) :
    (∀ n, n * p < t → (∀ k, k < n → busy (k * p) = true) → busy (n * p) = false →
      waitUntilIdle busy t p = .ok true) ∧
    ((∀ n, n * p < t → busy (n * p) = true) →
      waitUntilIdle busy t p = .error (idleTimeoutMsg t)) := by
  constructor
  · intro n hn hbusy hidle
    have hle : n ≤ n * p := Nat.le_mul_of_pos_right n hp
    apply waitLoop_firstIdle busy t p n 0 (t + 1)
    · simpa using hn
    · omega
    · intro k hk
      simpa using hbusy k hk
    · simpa using hidle
  · intro hall
    apply waitLoop_timeout busy t p hp (t + 1) 0
    · omega
    · omega
    · intro j hj
      simpa using hall j (by simpa using hj)

/-- Witness for C7: a remote busy at polls 0 and 1 and idle at poll 2
yields success, a remote busy forever yields the timeout error. -/
theorem waitUntilIdle_polls_until_idle_or_deadline_witness :
    waitUntilIdle (fun k => decide (k ≠ 2)) 5 1 = Except.ok true ∧
    waitUntilIdle (fun _ => true) 5 1 = Except.error (idleTimeoutMsg 5) :=
  ⟨(waitUntilIdle_polls_until_idle_or_deadline (fun k => decide (k ≠ 2)) 5 1 (by decide)).1
      2 (by decide) (fun k hk => by simp only [decide_eq_true_eq]; omega) (by decide),
   (waitUntilIdle_polls_until_idle_or_deadline (fun _ => true) 5 1 (by decide)).2
      (fun n hn => rfl)⟩

/-- Claim C8: for every string, unescaping the output of `escapeXml`
recovers the original string. -/
theorem escapeXml_roundtrip (s : List Char) :
    unescapeXml (escapeXml (some s)) = s := by
  show unescapeXml (if s = [] then [] else escapeXmlCore s) = s
  by_cases h : s = []
  · subst h
    rw [if_pos rfl, unescapeXml]
  · rw [if_neg h]
    exact unescapeXml_escapeXmlCore s

set_option maxRecDepth 100000 in
/-- Claim C9: `escapeXml` maps every falsy input (absent field, empty
string) to the empty string, so an `openmodel` operation with no file field
still renders, with an empty `file` attribute, instead of failing. -/
theorem escapeXml_falsy_total_render :
    escapeXml none = [] ∧ escapeXml (some []) = [] ∧
    generateXml [{ type := str "openmodel" }] =
      str "<?xml version=\"1.0\" encoding=\"UTF-8\"?>\n<autorun>\n  <openmodel file=\"\" />\n</autorun>" := by
  decide

/-- Claim C10: `listAssets` never throws — it answers every query with an
`ok` list; unknown asset types and known types whose configured directory
does not exist yield the empty list; for a known type with a nonempty
existing directory it returns exactly the entries whose lower-cased names
end with one of the type's extensions, as name-path descriptors. -/
theorem listAssets_total_and_filtered (fs : FileSys) (cfg : SolibriDirsCfg)
    (ty : List Char) :
    (∃ l, listAssets fs cfg ty = .ok l) ∧
    (ty ≠ str "classifications" → ty ≠ str "rulesets" → ty ≠ str "ito" →
      ty ≠ str "templates" → listAssets fs cfg ty = .ok []) ∧
    (∀ d, dirsFor cfg ty = some d → fs.existsSync d = false →
      listAssets fs cfg ty = .ok []) ∧
    (∀ d files, dirsFor cfg ty = some d → d ≠ [] →
      fs.dirEntries.lookup d = some files →
      listAssets fs cfg ty =
        .ok ((files.filter (matchesExt ty)).map (fun f => ⟨f, pathJoin d f⟩))) := by
  refine ⟨?_, ?_, ?_, ?_⟩
  · cases hd : dirsFor cfg ty with
    | none => exact ⟨[], by simp [listAssets, hd]⟩
    | some dir =>
      by_cases hguard : (dir.isEmpty || !(fs.existsSync dir)) = true
      · exact ⟨[], by simp only [listAssets, hd, hguard, if_true]⟩
      · have hex : fs.existsSync dir = true := by
          rcases Bool.eq_false_or_eq_true (fs.existsSync dir) with ht | hf
          · exact ht
          · exact absurd (by simp [hf]) hguard
        obtain ⟨files, hlk, hrd⟩ := readdir_of_existsSync fs dir hex
        refine ⟨(files.filter (matchesExt ty)).map (fun f => ⟨f, pathJoin dir f⟩), ?_⟩
        simp only [listAssets, hd, hguard, if_false, Bool.false_eq_true, hrd]
  · intro h1 h2 h3 h4
    have hN : dirsFor cfg ty = none := by
      unfold dirsFor
      rw [if_neg h1, if_neg h2, if_neg h3, if_neg h4]
    simp [listAssets, hN]
  · intro d hd hex
    simp [listAssets, hd, hex]
  · intro d files hd hne hlk
    have hex : fs.existsSync d = true := by
      unfold FileSys.existsSync
      rw [hlk]
      rfl
    have hrd : fs.readdirSync d = .ok files := by
      unfold FileSys.readdirSync
      rw [hlk]
    simp [listAssets, hd, hex, hrd, hne]

/-- Witness for C10: a rulesets directory holding two ruleset files (one
upper-cased) and one unrelated file yields exactly the two ruleset
descriptors. -/
theorem listAssets_total_and_filtered_witness :
    listAssets ⟨[(str "R", [str "a.cset", str "b.CSET", str "c.txt"])]⟩
        ⟨str "C", str "R", str "I", str "T"⟩ (str "rulesets")
      = Except.ok [⟨str "a.cset", str "R/a.cset"⟩, ⟨str "b.CSET", str "R/b.CSET"⟩] := by
  have h := (listAssets_total_and_filtered
      ⟨[(str "R", [str "a.cset", str "b.CSET", str "c.txt"])]⟩
      ⟨str "C", str "R", str "I", str "T"⟩ (str "rulesets")).2.2.2
    (str "R") [str "a.cset", str "b.CSET", str "c.txt"] (by decide) (by decide) (by decide)
  exact h.trans (congrArg Except.ok (by decide))

end SolibriMCP
